import Mathlib

/-!
Verification of the admission-control layer of a single-endpoint request
gateway (a Netlify serverless function, `call-gemini.js`): a sliding-window
rate limiter, a request validator, and the handler pipeline that forwards
validated requests to an upstream API and translates outcomes to HTTP
responses.

The JavaScript source is shallowly embedded: the module-level mutable
`Map` of the rate limiter becomes explicit state passing over a total
function `String → List Nat` (JS `rateLimit.get(ip) || []` returns the
empty array for unseen keys, so the total-function-with-default-[] model
is exact); timestamps are `Nat` milliseconds (for `time ≤ now` the JS
subtraction agrees with truncated `Nat` subtraction, and for `time > now`
both the negative JS difference and the truncated `0` satisfy
`· < 60000`, so the filter predicates agree on all inputs); the JS
runtime primitives `JSON.parse` and `fetch` are oracles passed as
parameters; thrown exceptions are modelled with `Except`.
-/

/-! ## Constants (lines 2–4 of the source) -/

def RATE_LIMIT_WINDOW : Nat := 60000

def MAX_REQUESTS_PER_WINDOW : Nat := 30

def MAX_PAYLOAD_SIZE : Nat := 100000

/-! ## Rate limiter state and `checkRateLimit` (lines 6–18) -/

/-- The module-level `rateLimit` map: identity → ordered timestamp list,
with `[]` for unseen identities (JS: `rateLimit.get(ip) || []`). -/
def RateStore := String → List Nat

/-- The empty map (process cold start). -/
def emptyStore : RateStore := fun _ => []

/-- `checkRateLimit(ip)` with the implicit `Date.now()` made an explicit
parameter `now`, and the mutable map made an explicit in/out state.
Returns the boolean result and the updated store. -/
def checkRateLimit (store : RateStore) (ip : String) (now : Nat) :
    Bool × RateStore :=
  let userRequests := store ip
  let recentRequests := userRequests.filter
    (fun time => now - time < RATE_LIMIT_WINDOW)
  if MAX_REQUESTS_PER_WINDOW ≤ recentRequests.length then
    (false, store)
  else
    (true, fun k => if k = ip then recentRequests ++ [now] else store k)

/-! ## JSON values and `JSON.stringify` -/

/-- JSON documents, as produced by `JSON.parse`. Numbers are modelled as
integers (the payloads this layer inspects never depend on fractional
values; only truthiness of `0` matters to the validator). -/
inductive Json where
  | null
  | bool (b : Bool)
  | num (n : Int)
  | str (s : String)
  | arr (elems : List Json)
  | obj (fields : List (String × Json))

/-- JSON string escaping as `JSON.stringify` performs it: quote,
backslash and the named control characters get two-character escapes,
remaining control characters a `\u00XX` escape. -/
def escapeChar (c : Char) : String :=
  if c = '"' then "\\\""
  else if c = '\\' then "\\\\"
  else if c = '\x08' then "\\b"
  else if c = '\x0c' then "\\f"
  else if c = '\n' then "\\n"
  else if c = '\r' then "\\r"
  else if c = '\t' then "\\t"
  else if c.toNat < 32 then
    "\\u00" ++ String.mk [Nat.digitChar (c.toNat / 16), Nat.digitChar (c.toNat % 16)]
  else String.mk [c]

/-- `JSON.stringify` of a string value. -/
def escapeString (s : String) : String :=
  "\"" ++ String.join (s.data.map escapeChar) ++ "\""

mutual

/-- `JSON.stringify` (no indentation argument, as the source calls it):
compact rendering with `,` and `:` separators and no whitespace. -/
def stringify : Json → String
  | .null => "null"
  | .bool true => "true"
  | .bool false => "false"
  | .num n => toString n
  | .str s => escapeString s
  | .arr xs => "[" ++ stringifyList xs ++ "]"
  | .obj fs => "\x7b" ++ stringifyFields fs ++ "\x7d"

def stringifyList : List Json → String
  | [] => ""
  | [x] => stringify x
  | x :: y :: xs => stringify x ++ "," ++ stringifyList (y :: xs)

def stringifyFields : List (String × Json) → String
  | [] => ""
  | [(k, v)] => escapeString k ++ ":" ++ stringify v
  | (k, v) :: f :: fs =>
    escapeString k ++ ":" ++ stringify v ++ "," ++ stringifyFields (f :: fs)

end

/-! ## `validateRequest` (lines 20–35) -/

/-- JS truthiness of a JSON value (`!x` is its negation): `null`,
`false`, `0` and `""` are falsy; every object and every array (even
empty) is truthy. -/
def jsTruthy : Json → Bool
  | .null => false
  | .bool b => b
  | .num n => n ≠ 0
  | .str s => s ≠ ""
  | .arr _ => true
  | .obj _ => true

/-- JS `typeof x === 'object'` for a JSON value: true for `null`,
arrays and objects, false for the primitives. -/
def jsTypeofObject : Json → Bool
  | .null => true
  | .arr _ => true
  | .obj _ => true
  | _ => false

/-- JS property access `x.contents` on a parsed JSON value: a field
lookup on objects, `undefined` (modelled `none`) otherwise. -/
def getField : Json → String → Option Json
  | .obj fs, k => fs.lookup k
  | _, _ => none

/-- JS `Array.isArray` on a possibly-`undefined` value. -/
def isArrayOpt : Option Json → Bool
  | some (.arr _) => true
  | _ => false

/-- Truthiness of a possibly-`undefined` value (`undefined` is falsy). -/
def jsTruthyOpt : Option Json → Bool
  | some j => jsTruthy j
  | none => false

/-- `validateRequest(requestBody)`: throws (modelled `.error`) on the
three guard failures, otherwise returns `true`. -/
def validateRequest (requestBody : Json) : Except String Bool :=
  if ¬ (jsTruthy requestBody ∧ jsTypeofObject requestBody) then
    .error "Invalid request body"
  else if ¬ (jsTruthyOpt (getField requestBody "contents") ∧
             isArrayOpt (getField requestBody "contents")) then
    .error "Invalid contents format"
  else if MAX_PAYLOAD_SIZE < (stringify requestBody).length then
    .error "Request payload too large"
  else
    .ok true

/-! ## The handler (lines 37–139) -/

/-- The inbound event as delivered by the entry point: method, a header
map, and a raw body (`none` models a `null`/absent body). -/
structure Event where
  headers : List (String × String)
  httpMethod : String
  body : Option String

/-- The response envelope `{ statusCode, headers, body }`. -/
structure HttpResponse where
  statusCode : Nat
  headers : List (String × String)
  body : String
deriving Repr, DecidableEq

/-- The outbound request handed to `fetch`. -/
structure OutboundRequest where
  url : String
  method : String
  headers : List (String × String)
  body : String
deriving Repr, DecidableEq

/-- The possible results of the `await fetch(...)` call: the promise
rejects (network failure and the like), or an HTTP response completes
with a status code and a body whose JSON parse either succeeds
(`some`) or would throw (`none`). -/
inductive FetchOutcome where
  | networkError
  | completed (status : Nat) (bodyJson : Option Json)

/-- `response.ok`: status in the inclusive range 200–299. -/
def responseOk (status : Nat) : Bool :=
  decide (200 ≤ status ∧ status ≤ 299)

/-- JS `a || b` on possibly-absent header strings: an absent header and
an empty string are both falsy. -/
def strOr (a : Option String) (b : String) : String :=
  match a with
  | some s => if s = "" then b else s
  | none => b

/-- Line 38: `event.headers['x-forwarded-for'] || event.headers['client-ip'] || 'unknown'`. -/
def clientIpOf (ev : Event) : String :=
  strOr (ev.headers.lookup "x-forwarded-for")
    (strOr (ev.headers.lookup "client-ip") "unknown")

def jsonContentType : String × String := ("Content-Type", "application/json")

/-- A one-field `{ "error": msg }` body, serialized. -/
def errorBody (msg : String) : String :=
  stringify (.obj [("error", .str msg)])

/-- Lines 41–48: the 429 rate-limited response. -/
def rateLimitedResponse : HttpResponse :=
  ⟨429, [jsonContentType, ("Retry-After", "60")],
    errorBody "リクエストが多すぎます。しばらくしてから再度お試しください。"⟩

/-- Lines 52–59: the 405 method-not-allowed response. -/
def methodNotAllowedResponse : HttpResponse :=
  ⟨405, [jsonContentType, ("Allow", "POST")], errorBody "Method not allowed"⟩

/-- Lines 67–73: the 400 invalid-request response. -/
def invalidRequestResponse : HttpResponse :=
  ⟨400, [jsonContentType], errorBody "無効なリクエストです。"⟩

/-- Lines 80–86: the 500 server-misconfiguration response. -/
def misconfiguredResponse : HttpResponse :=
  ⟨500, [jsonContentType], errorBody "サーバー設定エラー。管理者に連絡してください。"⟩

/-- Lines 104–114 with upstream status 429: the upstream-rate-limit response. -/
def upstreamRateLimitedResponse : HttpResponse :=
  ⟨429, [jsonContentType],
    errorBody "APIのレート制限に達しました。しばらくしてから再度お試しください。"⟩

/-- Lines 104–114 with any other non-success status: the
upstream-call-failed response. -/
def upstreamErrorResponse : HttpResponse :=
  ⟨500, [jsonContentType], errorBody "Gemini APIの呼び出しに失敗しました。"⟩

/-- Lines 131–137: the generic 500 of the outer catch. -/
def serverErrorResponse : HttpResponse :=
  ⟨500, [jsonContentType], errorBody "サーバーエラーが発生しました。"⟩

/-- Lines 119–127: the 200 success response relaying the parsed
upstream document verbatim. -/
def successResponse (data : Json) : HttpResponse :=
  ⟨200, [jsonContentType,
         ("Cache-Control", "no-store, no-cache, must-revalidate"),
         ("X-Content-Type-Options", "nosniff")],
    stringify data⟩

/-- Line 89: the upstream URL with the credential embedded as a query
parameter. -/
def googleApiUrl (apiKey : String) : String :=
  "https://generativelanguage.googleapis.com/v1beta/models/gemini-2.5-flash-preview-09-2025:generateContent?key=" ++ apiKey

/-- Lines 92–98: the single outbound POST built from the validated body. -/
def outboundRequestOf (apiKey : String) (requestBody : Json) : OutboundRequest :=
  ⟨googleApiUrl apiKey, "POST", [jsonContentType], stringify requestBody⟩

/-- Lines 100–137: translation of the `fetch` outcome to the external
response, including the outer catch (a rejected `fetch` promise, or a
`response.json()` throw in the success branch, lands in the generic
500; a `response.json()` throw in the error branch is swallowed by
`.catch(() => ({}))` and only logged). -/
def upstreamSection : FetchOutcome → HttpResponse
  | .networkError => serverErrorResponse
  | .completed status bodyJson =>
    if ¬ responseOk status then
      if status = 429 then upstreamRateLimitedResponse else upstreamErrorResponse
    else
      match bodyJson with
      | none => serverErrorResponse
      | some data => successResponse data

/-- The full result of one handler invocation: the response, the
rate-limiter store after the call, and the list of outbound requests
issued (instrumentation for the no-call / single-call claims). -/
structure HandlerResult where
  response : HttpResponse
  store : RateStore
  calls : List OutboundRequest

/-- `exports.handler` (lines 37–139). `parse` is the runtime
`JSON.parse` applied to `event.body` (`none` models a throw, which the
`try` at line 63 turns into a 400 together with a `validateRequest`
throw); `apiKey` is `process.env.GEMINI_API_KEY` (`none` models an
unset variable); `fetch` is the runtime `fetch` oracle; `now` is
`Date.now()`; `store` is the module-level map. -/
def handler (ev : Event) (parse : Option String → Option Json)
    (apiKey : Option String) (now : Nat)
    (fetch : OutboundRequest → FetchOutcome) (store : RateStore) :
    HandlerResult :=
  let clientIp := clientIpOf ev
  match checkRateLimit store clientIp now with
  | (false, store1) => ⟨rateLimitedResponse, store1, []⟩
  | (true, store1) =>
    if ev.httpMethod ≠ "POST" then
      ⟨methodNotAllowedResponse, store1, []⟩
    else
      match parse ev.body with
      | none => ⟨invalidRequestResponse, store1, []⟩
      | some requestBody =>
        match validateRequest requestBody with
        | .error _ => ⟨invalidRequestResponse, store1, []⟩
        | .ok _ =>
          match apiKey with
          | none => ⟨misconfiguredResponse, store1, []⟩
          | some key =>
            if key = "" then
              ⟨misconfiguredResponse, store1, []⟩
            else
              let outReq := outboundRequestOf key requestBody
              ⟨upstreamSection (fetch outReq), store1, [outReq]⟩

/-! ## Trace semantics of successive `checkRateLimit` calls -/

/-- A run of successive `checkRateLimit` calls from a given store,
recording each call's identity, instant and verdict. -/
def runLog : RateStore → List (String × Nat) → List (String × Nat × Bool)
  | _, [] => []
  | store, (id, t) :: rest =>
    (id, t, (checkRateLimit store id t).1) ::
      runLog (checkRateLimit store id t).2 rest

/-- The store after a run of successive `checkRateLimit` calls. -/
def runStore : RateStore → List (String × Nat) → RateStore
  | store, [] => store
  | store, (id, t) :: rest => runStore (checkRateLimit store id t).2 rest

/-- The admitted calls of a log: the entries whose verdict was `true`. -/
def admittedOf (log : List (String × Nat × Bool)) : List (String × Nat) :=
  log.filterMap (fun e => if e.2.2 = true then some (e.1, e.2.1) else none)

/-- Membership in the trailing window of length `RATE_LIMIT_WINDOW`
ending at instant `T`, for identity `id`. -/
def winPred (id : String) (T : Nat) (p : String × Nat) : Bool :=
  decide (p.1 = id ∧ p.2 ≤ T ∧ T - p.2 < RATE_LIMIT_WINDOW)

/-- The timestamps a history of admitted calls records for `id`. -/
def timesOf (hist : List (String × Nat)) (id : String) : List Nat :=
  (hist.filter (fun p => p.1 = id)).map Prod.snd

/-- The store agrees with the admitted history on every window whose
end lies at or after all recorded instants: filtering either through a
window ending at such an instant yields the same timestamp list. -/
def StoreHist (hist : List (String × Nat)) (store : RateStore) : Prop :=
  ∀ id m, (∀ p ∈ hist, p.2 ≤ m) →
    (store id).filter (fun t => m - t < RATE_LIMIT_WINDOW) =
    (timesOf hist id).filter (fun t => m - t < RATE_LIMIT_WINDOW)

/-! ## Concrete example stores, events and oracles -/

/-- Example store in which identity `"a"` has exhausted its quota at
instant `0`. -/
def saturatedStore : RateStore :=
  fun i => if i = "a" then List.replicate 30 0 else []

/-- A GET event with no headers: its identity is the sentinel `"unknown"`. -/
def getEvent : Event := ⟨[], "GET", none⟩

/-- A GET event whose forwarded-address header is `"a"`. -/
def getEventA : Event := ⟨[("x-forwarded-for", "a")], "GET", none⟩

/-- A POST event with no headers and a nominal body. -/
def postEvent : Event := ⟨[], "POST", some "\x7b\"contents\":[]\x7d"⟩

/-- The parsed document `{"contents": []}`. -/
def contentsEmptyJson : Json := .obj [("contents", .arr [])]

/-- A parse oracle that always yields `{"contents": []}`. -/
def parseContentsEmpty : Option String → Option Json :=
  fun _ => some contentsEmptyJson

/-- A fetch oracle whose promise always rejects. -/
def fetchFail : OutboundRequest → FetchOutcome := fun _ => .networkError

/-- A fetch oracle always completing with HTTP 503 and an unparsable body. -/
def fetch503 : OutboundRequest → FetchOutcome := fun _ => .completed 503 none

/-- A fetch oracle always completing with HTTP 200 and the parsed body
`null`. -/
def fetch200 : OutboundRequest → FetchOutcome := fun _ => .completed 200 (some .null)

/-- Top-level objecthood per the claim's taxonomy: a JSON object counts
as an object; `null`, primitives and arrays do not. -/
def isObjTop : Json → Bool
  | .obj _ => true
  | _ => false

/-- The claim's invalidity condition on a parsed document: the document
is not an object at the top level (null, primitive or array included),
or its `contents` field is absent or not an array, or its re-serialized
JSON length exceeds `MAX_PAYLOAD_SIZE`. -/
def invalidDoc (j : Json) : Bool :=
  !isObjTop j || !isArrayOpt (getField j "contents") ||
    decide (MAX_PAYLOAD_SIZE < (stringify j).length)

/-! ## Basic lemmas on `checkRateLimit` -/

theorem checkRateLimit_fst (store : RateStore) (ip : String) (now : Nat) :
    (checkRateLimit store ip now).1 =
      !decide (MAX_REQUESTS_PER_WINDOW ≤
        ((store ip).filter (fun t => now - t < RATE_LIMIT_WINDOW)).length) := by
  by_cases h : MAX_REQUESTS_PER_WINDOW ≤
      ((store ip).filter (fun t => now - t < RATE_LIMIT_WINDOW)).length <;>
    simp [checkRateLimit, h]

theorem checkRateLimit_reject_snd (store : RateStore) (ip : String) (now : Nat)
    (h : (checkRateLimit store ip now).1 = false) :
    (checkRateLimit store ip now).2 = store := by
  by_cases hc : MAX_REQUESTS_PER_WINDOW ≤
      ((store ip).filter (fun t => now - t < RATE_LIMIT_WINDOW)).length
  · simp [checkRateLimit, hc]
  · simp [checkRateLimit, hc] at h

theorem checkRateLimit_admit_snd (store : RateStore) (ip : String) (now : Nat)
    (h : (checkRateLimit store ip now).1 = true) :
    (checkRateLimit store ip now).2 =
      fun k => if k = ip then
        ((store ip).filter (fun t => now - t < RATE_LIMIT_WINDOW)) ++ [now]
      else store k := by
  by_cases hc : MAX_REQUESTS_PER_WINDOW ≤
      ((store ip).filter (fun t => now - t < RATE_LIMIT_WINDOW)).length
  · simp [checkRateLimit, hc] at h
  · simp [checkRateLimit, hc]

theorem checkRateLimit_length (store : RateStore) (ip : String) (now : Nat)
    (hb : ∀ id, (store id).length ≤ MAX_REQUESTS_PER_WINDOW) (id : String) :
    (((checkRateLimit store ip now).2) id).length ≤ MAX_REQUESTS_PER_WINDOW := by
  rcases hr : (checkRateLimit store ip now).1 with _ | _
  · rw [checkRateLimit_reject_snd store ip now hr]
    exact hb id
  · rw [checkRateLimit_admit_snd store ip now hr]
    have hlt : ¬ MAX_REQUESTS_PER_WINDOW ≤
        ((store ip).filter (fun t => now - t < RATE_LIMIT_WINDOW)).length := by
      have hfst := checkRateLimit_fst store ip now
      rw [hr] at hfst
      simpa using hfst.symm
    by_cases hid : id = ip
    · subst hid
      simp only [eq_self_iff_true, if_true, List.length_append, List.length_singleton]
      omega
    · simpa [hid] using hb id

/-- C9 helper: the per-identity length bound is preserved by any run. -/
theorem runStore_length (calls : List (String × Nat)) :
    ∀ store : RateStore, (∀ id, (store id).length ≤ MAX_REQUESTS_PER_WINDOW) →
    ∀ id, (runStore store calls id).length ≤ MAX_REQUESTS_PER_WINDOW := by
  induction calls with
  | nil => intro store hb id; exact hb id
  | cons c rest ih =>
    intro store hb id
    exact ih (checkRateLimit store c.1 c.2).2 (checkRateLimit_length store c.1 c.2 hb) id

/-- C9: starting from the empty map, after every sequence of
`checkRateLimit` calls with non-decreasing instants, every identity's
stored timestamp list has length at most `MAX_REQUESTS_PER_WINDOW`
(30): a list is only ever written back as a filtered sequence of length
strictly below 30 with one element appended. -/
theorem runStore_length_bound (calls : List (String × Nat))
    (hsorted : (calls.map Prod.snd).Sorted (· ≤ ·)) (id : String) :
    (runStore emptyStore calls id).length ≤ MAX_REQUESTS_PER_WINDOW :=
  runStore_length calls emptyStore (fun _ => by simp [emptyStore]) id

theorem runStore_length_bound_witness :
    (runStore emptyStore [("a", 3), ("a", 5)] "a").length ≤ MAX_REQUESTS_PER_WINDOW :=
  runStore_length_bound [("a", 3), ("a", 5)] (by decide) "a"


/-- C8: when `checkRateLimit` rejects, the stored timestamp sequence of
every identity (the rejected one included) is left exactly as it was:
the rejected request is not recorded and no pruning is written back. -/
theorem checkRateLimit_reject_frame (store : RateStore) (ip : String) (now : Nat)
    (h : (checkRateLimit store ip now).1 = false) :
    (checkRateLimit store ip now).2 = store ∧
    ∀ id, (checkRateLimit store ip now).2 id = store id := by
  refine ⟨checkRateLimit_reject_snd store ip now h, fun id => ?_⟩
  rw [checkRateLimit_reject_snd store ip now h]

theorem checkRateLimit_reject_frame_witness :
    (checkRateLimit saturatedStore "a" 0).2 = saturatedStore ∧
    ∀ id, (checkRateLimit saturatedStore "a" 0).2 id = saturatedStore id :=
  checkRateLimit_reject_frame saturatedStore "a" 0 (by decide)

/-! ## Reduction lemmas for the handler pipeline -/

theorem handler_reject (ev : Event) (parse : Option String → Option Json)
    (apiKey : Option String) (now : Nat) (fetch : OutboundRequest → FetchOutcome)
    (store : RateStore) (h : (checkRateLimit store (clientIpOf ev) now).1 = false) :
    handler ev parse apiKey now fetch store =
      ⟨rateLimitedResponse, (checkRateLimit store (clientIpOf ev) now).2, []⟩ := by
  rcases hck : checkRateLimit store (clientIpOf ev) now with ⟨b, s'⟩
  rw [hck] at h
  simp only at h
  subst h
  simp [handler, hck]

theorem handler_admit_nonPost (ev : Event) (parse : Option String → Option Json)
    (apiKey : Option String) (now : Nat) (fetch : OutboundRequest → FetchOutcome)
    (store : RateStore) (h : (checkRateLimit store (clientIpOf ev) now).1 = true)
    (hm : ev.httpMethod ≠ "POST") :
    handler ev parse apiKey now fetch store =
      ⟨methodNotAllowedResponse, (checkRateLimit store (clientIpOf ev) now).2, []⟩ := by
  rcases hck : checkRateLimit store (clientIpOf ev) now with ⟨b, s'⟩
  rw [hck] at h
  simp only at h
  subst h
  simp [handler, hck, hm]

theorem handler_parse_fail (ev : Event) (parse : Option String → Option Json)
    (apiKey : Option String) (now : Nat) (fetch : OutboundRequest → FetchOutcome)
    (store : RateStore) (h : (checkRateLimit store (clientIpOf ev) now).1 = true)
    (hm : ev.httpMethod = "POST") (hp : parse ev.body = none) :
    handler ev parse apiKey now fetch store =
      ⟨invalidRequestResponse, (checkRateLimit store (clientIpOf ev) now).2, []⟩ := by
  rcases hck : checkRateLimit store (clientIpOf ev) now with ⟨b, s'⟩
  rw [hck] at h
  simp only at h
  subst h
  simp [handler, hck, hm, hp]

theorem handler_validate_fail (ev : Event) (parse : Option String → Option Json)
    (apiKey : Option String) (now : Nat) (fetch : OutboundRequest → FetchOutcome)
    (store : RateStore) (h : (checkRateLimit store (clientIpOf ev) now).1 = true)
    (hm : ev.httpMethod = "POST") (j : Json) (hp : parse ev.body = some j)
    (e : String) (hv : validateRequest j = .error e) :
    handler ev parse apiKey now fetch store =
      ⟨invalidRequestResponse, (checkRateLimit store (clientIpOf ev) now).2, []⟩ := by
  rcases hck : checkRateLimit store (clientIpOf ev) now with ⟨b, s'⟩
  rw [hck] at h
  simp only at h
  subst h
  simp [handler, hck, hm, hp, hv]

theorem handler_no_key (ev : Event) (parse : Option String → Option Json)
    (now : Nat) (fetch : OutboundRequest → FetchOutcome)
    (store : RateStore) (h : (checkRateLimit store (clientIpOf ev) now).1 = true)
    (hm : ev.httpMethod = "POST") (j : Json) (hp : parse ev.body = some j)
    (hv : validateRequest j = .ok true) (apiKey : Option String)
    (hk : apiKey = none ∨ apiKey = some "") :
    handler ev parse apiKey now fetch store =
      ⟨misconfiguredResponse, (checkRateLimit store (clientIpOf ev) now).2, []⟩ := by
  rcases hck : checkRateLimit store (clientIpOf ev) now with ⟨b, s'⟩
  rw [hck] at h
  simp only at h
  subst h
  rcases hk with hk | hk <;> subst hk <;> simp [handler, hck, hm, hp, hv]

theorem handler_with_key (ev : Event) (parse : Option String → Option Json)
    (now : Nat) (fetch : OutboundRequest → FetchOutcome)
    (store : RateStore) (h : (checkRateLimit store (clientIpOf ev) now).1 = true)
    (hm : ev.httpMethod = "POST") (j : Json) (hp : parse ev.body = some j)
    (hv : validateRequest j = .ok true) (key : String) (hne : key ≠ "") :
    handler ev parse (some key) now fetch store =
      ⟨upstreamSection (fetch (outboundRequestOf key j)),
        (checkRateLimit store (clientIpOf ev) now).2,
        [outboundRequestOf key j]⟩ := by
  rcases hck : checkRateLimit store (clientIpOf ev) now with ⟨b, s'⟩
  rw [hck] at h
  simp only at h
  subst h
  simp [handler, hck, hm, hp, hv, hne]


/-! ## C3: fixed check order with short-circuiting -/

/-- C3: the handler applies rate limit → method → parse/validate →
credential → upstream in that order with short-circuiting: a
rate-limited identity gets the 429 response (with `Retry-After: 60`)
regardless of the HTTP method, and a non-rate-limited non-POST request
gets the 405 response (with `Allow: POST`) regardless of body, parse
oracle, credential or fetch oracle. -/
theorem handler_check_order (ev : Event) (parse : Option String → Option Json)
    (apiKey : Option String) (now : Nat) (fetch : OutboundRequest → FetchOutcome)
    (store : RateStore) :
    ((checkRateLimit store (clientIpOf ev) now).1 = false →
      (handler ev parse apiKey now fetch store).response = rateLimitedResponse) ∧
    ((checkRateLimit store (clientIpOf ev) now).1 = true →
      ev.httpMethod ≠ "POST" →
      (handler ev parse apiKey now fetch store).response = methodNotAllowedResponse) ∧
    rateLimitedResponse.statusCode = 429 ∧
    ("Retry-After", "60") ∈ rateLimitedResponse.headers ∧
    methodNotAllowedResponse.statusCode = 405 ∧
    ("Allow", "POST") ∈ methodNotAllowedResponse.headers := by
  refine ⟨fun h => ?_, fun h hm => ?_, rfl, by decide, rfl, by decide⟩
  · rw [handler_reject ev parse apiKey now fetch store h]
  · rw [handler_admit_nonPost ev parse apiKey now fetch store h hm]

theorem handler_check_order_witness :
    (handler getEventA (fun _ => none) none 0 fetchFail saturatedStore).response =
      rateLimitedResponse ∧
    (handler getEvent (fun _ => none) none 0 fetchFail emptyStore).response =
      methodNotAllowedResponse :=
  ⟨(handler_check_order getEventA (fun _ => none) none 0 fetchFail saturatedStore).1
      (by decide),
   (handler_check_order getEvent (fun _ => none) none 0 fetchFail emptyStore).2.1
      (by decide) (by decide)⟩

/-! ## C10: admission is recorded before the method check -/

/-- C10: every request that passes the rate-limit check is recorded as
an admission before the method is inspected: a non-POST request from a
non-rate-limited identity receives the 405 response, yet its timestamp
is appended to that identity's stored sequence, consuming one unit of
quota exactly as an admitted POST would. -/
theorem handler_records_nonPost (ev : Event) (parse : Option String → Option Json)
    (apiKey : Option String) (now : Nat) (fetch : OutboundRequest → FetchOutcome)
    (store : RateStore)
    (h : (checkRateLimit store (clientIpOf ev) now).1 = true)
    (hm : ev.httpMethod ≠ "POST") :
    (handler ev parse apiKey now fetch store).response = methodNotAllowedResponse ∧
    (handler ev parse apiKey now fetch store).store (clientIpOf ev) =
      ((store (clientIpOf ev)).filter
        (fun t => now - t < RATE_LIMIT_WINDOW)) ++ [now] := by
  rw [handler_admit_nonPost ev parse apiKey now fetch store h hm]
  refine ⟨rfl, ?_⟩
  rw [checkRateLimit_admit_snd store (clientIpOf ev) now h]
  simp

theorem handler_records_nonPost_witness :
    (handler getEvent (fun _ => none) none 7 fetchFail emptyStore).response =
      methodNotAllowedResponse ∧
    (handler getEvent (fun _ => none) none 7 fetchFail emptyStore).store
        (clientIpOf getEvent) =
      ((emptyStore (clientIpOf getEvent)).filter
        (fun t => 7 - t < RATE_LIMIT_WINDOW)) ++ [7] :=
  handler_records_nonPost getEvent (fun _ => none) none 7 fetchFail emptyStore
    (by decide) (by decide)

/-! ## C7: missing credential yields 500 and no outbound call -/

/-- C7: for an admitted, valid POST request, if `GEMINI_API_KEY` is
absent (or empty, which JS treats as equally falsy) the handler returns
the 500 misconfiguration response and issues no outbound call. -/
theorem handler_missing_credential (ev : Event) (parse : Option String → Option Json)
    (now : Nat) (fetch : OutboundRequest → FetchOutcome) (store : RateStore)
    (h : (checkRateLimit store (clientIpOf ev) now).1 = true)
    (hm : ev.httpMethod = "POST") (j : Json) (hp : parse ev.body = some j)
    (hv : validateRequest j = .ok true) (apiKey : Option String)
    (hk : apiKey = none ∨ apiKey = some "") :
    (handler ev parse apiKey now fetch store).response = misconfiguredResponse ∧
    (handler ev parse apiKey now fetch store).calls = [] ∧
    misconfiguredResponse.statusCode = 500 := by
  rw [handler_no_key ev parse now fetch store h hm j hp hv apiKey hk]
  exact ⟨rfl, rfl, rfl⟩

theorem handler_missing_credential_witness :
    (handler postEvent parseContentsEmpty none 0 fetchFail emptyStore).response =
      misconfiguredResponse ∧
    (handler postEvent parseContentsEmpty none 0 fetchFail emptyStore).calls = [] ∧
    misconfiguredResponse.statusCode = 500 :=
  handler_missing_credential postEvent parseContentsEmpty 0 fetchFail emptyStore
    (by decide) rfl contentsEmptyJson rfl (by rfl) none (Or.inl rfl)

/-! ## C5: upstream error translation -/

/-- C5: when the upstream call completes with a non-success status, the
external response is exactly the upstream-rate-limit 429 response when
the upstream status is exactly 429 and exactly the upstream-error 500
response for every other non-success status, for every possible error
body (a JSON parse failure of the error body included, since
`.catch(() => ({}))` only feeds the log): neither the upstream status
code nor the upstream error body reaches the caller. -/
theorem handler_upstream_error (ev : Event) (parse : Option String → Option Json)
    (now : Nat) (fetch : OutboundRequest → FetchOutcome) (store : RateStore)
    (h : (checkRateLimit store (clientIpOf ev) now).1 = true)
    (hm : ev.httpMethod = "POST") (j : Json) (hp : parse ev.body = some j)
    (hv : validateRequest j = .ok true) (key : String) (hne : key ≠ "")
    (status : Nat) (errBody : Option Json)
    (hf : fetch (outboundRequestOf key j) = .completed status errBody)
    (hok : responseOk status = false) :
    (handler ev parse (some key) now fetch store).response =
      (if status = 429 then upstreamRateLimitedResponse else upstreamErrorResponse) ∧
    upstreamRateLimitedResponse.statusCode = 429 ∧
    upstreamErrorResponse.statusCode = 500 := by
  rw [handler_with_key ev parse now fetch store h hm j hp hv key hne]
  refine ⟨?_, rfl, rfl⟩
  rw [hf]
  simp [upstreamSection, hok]


theorem handler_upstream_error_witness :
    (handler postEvent parseContentsEmpty (some "k") 0 fetch503 emptyStore).response =
      (if 503 = 429 then upstreamRateLimitedResponse else upstreamErrorResponse) ∧
    upstreamRateLimitedResponse.statusCode = 429 ∧
    upstreamErrorResponse.statusCode = 500 :=
  handler_upstream_error postEvent parseContentsEmpty 0 fetch503 emptyStore
    (by decide) rfl contentsEmptyJson rfl (by rfl) "k" (by decide) 503 none rfl rfl

/-! ## C6: verbatim forwarding and verbatim success relay -/

/-- C6: for a validated payload the outbound call is a single POST with
`Content-Type: application/json` and body exactly the re-serialization
of the inbound parsed document, and a successful upstream response is
relayed as a 200 whose body is the re-serialization of the parsed
upstream document verbatim, with the three specified headers. -/
theorem handler_forwards_verbatim (ev : Event) (parse : Option String → Option Json)
    (now : Nat) (fetch : OutboundRequest → FetchOutcome) (store : RateStore)
    (h : (checkRateLimit store (clientIpOf ev) now).1 = true)
    (hm : ev.httpMethod = "POST") (j : Json) (hp : parse ev.body = some j)
    (hv : validateRequest j = .ok true) (key : String) (hne : key ≠ "") :
    (handler ev parse (some key) now fetch store).calls = [outboundRequestOf key j] ∧
    (outboundRequestOf key j).method = "POST" ∧
    (outboundRequestOf key j).headers = [("Content-Type", "application/json")] ∧
    (outboundRequestOf key j).body = stringify j ∧
    (outboundRequestOf key j).url = googleApiUrl key ∧
    (∀ status data, fetch (outboundRequestOf key j) = .completed status (some data) →
      responseOk status = true →
      (handler ev parse (some key) now fetch store).response = successResponse data) ∧
    (∀ data, (successResponse data).statusCode = 200 ∧
      (successResponse data).headers =
        [("Content-Type", "application/json"),
         ("Cache-Control", "no-store, no-cache, must-revalidate"),
         ("X-Content-Type-Options", "nosniff")] ∧
      (successResponse data).body = stringify data) := by
  rw [handler_with_key ev parse now fetch store h hm j hp hv key hne]
  refine ⟨rfl, rfl, rfl, rfl, rfl, ?_, fun data => ⟨rfl, rfl, rfl⟩⟩
  intro status data hf hok
  rw [hf]
  simp [upstreamSection, hok]


theorem handler_forwards_verbatim_witness :
    (handler postEvent parseContentsEmpty (some "k") 0 fetch200 emptyStore).calls =
      [outboundRequestOf "k" contentsEmptyJson] ∧
    (handler postEvent parseContentsEmpty (some "k") 0 fetch200 emptyStore).response =
      successResponse .null :=
  ⟨(handler_forwards_verbatim postEvent parseContentsEmpty 0 fetch200 emptyStore
      (by decide) rfl contentsEmptyJson rfl (by rfl) "k" (by decide)).1,
   (handler_forwards_verbatim postEvent parseContentsEmpty 0 fetch200 emptyStore
      (by decide) rfl contentsEmptyJson rfl (by rfl) "k" (by decide)).2.2.2.2.2.1
     200 .null rfl rfl⟩

/-! ## C2: every event gets a shaped response; unforeseen throws become 500 -/

theorem upstreamSection_cases (o : FetchOutcome) :
    upstreamSection o = serverErrorResponse ∨
    upstreamSection o = upstreamRateLimitedResponse ∨
    upstreamSection o = upstreamErrorResponse ∨
    ∃ data, upstreamSection o = successResponse data := by
  cases o with
  | networkError => exact Or.inl rfl
  | completed status bodyJson =>
    by_cases hok : responseOk status = true
    · cases bodyJson with
      | none =>
        refine Or.inl ?_
        simp [upstreamSection, hok]
      | some data =>
        refine Or.inr (Or.inr (Or.inr ⟨data, ?_⟩))
        simp [upstreamSection, hok]
    · rw [Bool.not_eq_true] at hok
      by_cases h429 : status = 429
      · subst h429
        refine Or.inr (Or.inl ?_)
        simp [upstreamSection, responseOk]
      · refine Or.inr (Or.inr (Or.inl ?_))
        simp [upstreamSection, hok, h429]

theorem upstreamSection_statusCode (o : FetchOutcome) :
    (upstreamSection o).statusCode ∈ ([200, 429, 500] : List Nat) ∧
    jsonContentType ∈ (upstreamSection o).headers := by
  rcases upstreamSection_cases o with h | h | h | ⟨data, h⟩ <;> rw [h]
  · exact ⟨by decide, by decide⟩
  · exact ⟨by decide, by decide⟩
  · exact ⟨by decide, by decide⟩
  · exact ⟨by simp [successResponse], by simp [successResponse]⟩

theorem validateRequest_ok_true (j : Json) (b : Bool)
    (hv : validateRequest j = .ok b) : b = true := by
  unfold validateRequest at hv
  split_ifs at hv <;> simp_all

/-- C2: for every inbound event (whatever its headers, method and
body), every parse result, every credential state and every fetch
outcome, the handler yields a shaped envelope: a status code among
200/400/405/429/500 with a `Content-Type: application/json` header.
Moreover the two unforeseen-exception paths of the pipeline — a
rejected `fetch` promise and a `response.json()` throw on a success
response — are converted into the generic 500 response by the outer
catch. -/
theorem handler_always_shaped (ev : Event) (parse : Option String → Option Json)
    (apiKey : Option String) (now : Nat) (fetch : OutboundRequest → FetchOutcome)
    (store : RateStore) :
    (handler ev parse apiKey now fetch store).response.statusCode ∈
      ([200, 400, 405, 429, 500] : List Nat) ∧
    jsonContentType ∈ (handler ev parse apiKey now fetch store).response.headers ∧
    upstreamSection .networkError = serverErrorResponse ∧
    serverErrorResponse.statusCode = 500 ∧
    (∀ status, responseOk status = true →
      upstreamSection (.completed status none) = serverErrorResponse) := by
  refine ⟨?_, ?_, rfl, rfl, fun status hok => by simp [upstreamSection, hok]⟩ <;>
  · rcases hck : (checkRateLimit store (clientIpOf ev) now).1 with _ | _
    · rw [handler_reject ev parse apiKey now fetch store hck]
      dsimp only
      decide
    · by_cases hm : ev.httpMethod = "POST"
      · rcases hp : parse ev.body with _ | j
        · rw [handler_parse_fail ev parse apiKey now fetch store hck hm hp]
          dsimp only
          decide
        · rcases hv : validateRequest j with e | b
          · rw [handler_validate_fail ev parse apiKey now fetch store hck hm j hp e hv]
            dsimp only
            decide
          · have hb := validateRequest_ok_true j b hv
            subst hb
            rcases apiKey with _ | key
            · rw [handler_no_key ev parse now fetch store hck hm j hp hv none
                (Or.inl rfl)]
              dsimp only
              decide
            · by_cases hke : key = ""
              · subst hke
                rw [handler_no_key ev parse now fetch store hck hm j hp hv
                  (some "") (Or.inr rfl)]
                dsimp only
                decide
              · rw [handler_with_key ev parse now fetch store hck hm j hp hv key hke]
                dsimp only
                rcases upstreamSection_cases (fetch (outboundRequestOf key j)) with
                  h | h | h | ⟨data, h⟩ <;> rw [h] <;>
                  first
                  | decide
                  | simp [successResponse, jsonContentType]
      · rw [handler_admit_nonPost ev parse apiKey now fetch store hck hm]
        dsimp only
        decide

theorem handler_always_shaped_witness :
    (handler getEvent (fun _ => none) none 0 fetchFail emptyStore).response.statusCode ∈
      ([200, 400, 405, 429, 500] : List Nat) ∧
    upstreamSection (.completed 200 none) = serverErrorResponse :=
  ⟨(handler_always_shaped getEvent (fun _ => none) none 0 fetchFail emptyStore).1,
   (handler_always_shaped getEvent (fun _ => none) none 0 fetchFail
      emptyStore).2.2.2.2 200 (by decide)⟩

/-! ## C4: external 400 iff parse failure or shape/size violation -/


/-- The validator accepts a document exactly when the claim's condition
does not hold of it. -/
theorem validateRequest_ok_iff (j : Json) :
    validateRequest j = .ok true ↔ invalidDoc j = false := by
  cases j with
  | null => simp [validateRequest, invalidDoc, isObjTop, jsTruthy]
  | bool b =>
    cases b <;>
      simp [validateRequest, invalidDoc, isObjTop, jsTruthy, jsTypeofObject,
        getField, isArrayOpt, jsTruthyOpt]
  | num n =>
    simp [validateRequest, invalidDoc, isObjTop, jsTypeofObject]
  | str s =>
    simp [validateRequest, invalidDoc, isObjTop, jsTypeofObject]
  | arr xs =>
    simp [validateRequest, invalidDoc, isObjTop, jsTruthy, jsTypeofObject,
      getField, isArrayOpt, jsTruthyOpt]
  | obj fs =>
    rcases hc : fs.lookup "contents" with _ | v
    · simp [validateRequest, invalidDoc, isObjTop, jsTruthy, jsTypeofObject,
        getField, hc, isArrayOpt, jsTruthyOpt]
    · cases v <;>
        simp [validateRequest, invalidDoc, isObjTop, jsTruthy, jsTypeofObject,
          getField, hc, isArrayOpt, jsTruthyOpt]

theorem validateRequest_error_of_invalid (j : Json) (hd : invalidDoc j = true) :
    ∃ e, validateRequest j = .error e := by
  rcases hv : validateRequest j with e | b
  · exact ⟨e, rfl⟩
  · have hb := validateRequest_ok_true j b hv
    subst hb
    rw [validateRequest_ok_iff j] at hv
    rw [hv] at hd
    cases hd

/-- C4: for an admitted POST request, the external response has status
400 exactly when the raw body fails to parse as JSON or the parsed
document violates the claim's shape/size condition (`invalidDoc`); both
failure modes yield the identical `invalidRequestResponse` (a non-JSON
body never surfaces as a raw parser exception); and `{"contents": []}`
passes validation. -/
theorem handler_invalid_request (ev : Event) (parse : Option String → Option Json)
    (apiKey : Option String) (now : Nat) (fetch : OutboundRequest → FetchOutcome)
    (store : RateStore)
    (h : (checkRateLimit store (clientIpOf ev) now).1 = true)
    (hm : ev.httpMethod = "POST") :
    ((handler ev parse apiKey now fetch store).response.statusCode = 400 ↔
      (parse ev.body = none ∨
        ∃ j, parse ev.body = some j ∧ invalidDoc j = true)) ∧
    (parse ev.body = none →
      (handler ev parse apiKey now fetch store).response = invalidRequestResponse) ∧
    (∀ j, parse ev.body = some j → invalidDoc j = true →
      (handler ev parse apiKey now fetch store).response = invalidRequestResponse) ∧
    validateRequest (.obj [("contents", .arr [])]) = .ok true ∧
    invalidRequestResponse.statusCode = 400 := by
  have hnone : parse ev.body = none →
      (handler ev parse apiKey now fetch store).response = invalidRequestResponse := by
    intro hp
    rw [handler_parse_fail ev parse apiKey now fetch store h hm hp]
  have hinv : ∀ j, parse ev.body = some j → invalidDoc j = true →
      (handler ev parse apiKey now fetch store).response = invalidRequestResponse := by
    intro j hp hd
    obtain ⟨e, hv⟩ := validateRequest_error_of_invalid j hd
    rw [handler_validate_fail ev parse apiKey now fetch store h hm j hp e hv]
  refine ⟨⟨fun h400 => ?_, fun hcond => ?_⟩, hnone, hinv, by rfl, rfl⟩
  · rcases hp : parse ev.body with _ | j
    · exact Or.inl rfl
    · refine Or.inr ⟨j, rfl, ?_⟩
      by_contra hd
      rw [Bool.not_eq_true] at hd
      have hv : validateRequest j = .ok true := (validateRequest_ok_iff j).mpr hd
      rcases apiKey with _ | key
      · rw [handler_no_key ev parse now fetch store h hm j hp hv none
          (Or.inl rfl)] at h400
        cases h400
      · by_cases hke : key = ""
        · subst hke
          rw [handler_no_key ev parse now fetch store h hm j hp hv (some "")
            (Or.inr rfl)] at h400
          cases h400
        · rw [handler_with_key ev parse now fetch store h hm j hp hv key hke] at h400
          dsimp only at h400
          rcases upstreamSection_cases (fetch (outboundRequestOf key j)) with
            hu | hu | hu | ⟨data, hu⟩ <;> rw [hu] at h400 <;> cases h400
  · rcases hcond with hp | ⟨j, hp, hd⟩
    · rw [hnone hp]
      rfl
    · rw [hinv j hp hd]
      rfl

theorem handler_invalid_request_witness :
    (handler postEvent (fun _ => none) none 0 fetchFail emptyStore).response =
      invalidRequestResponse ∧
    validateRequest (.obj [("contents", .arr [])]) = .ok true :=
  ⟨(handler_invalid_request postEvent (fun _ => none) none 0 fetchFail emptyStore
      (by decide) rfl).2.1 rfl,
   (handler_invalid_request postEvent (fun _ => none) none 0 fetchFail emptyStore
      (by decide) rfl).2.2.2.1⟩

/-! ## C1: the sliding-window guarantee -/

theorem admittedOf_cons_true (i : String) (s : Nat) (L : List (String × Nat × Bool)) :
    admittedOf ((i, s, true) :: L) = (i, s) :: admittedOf L := by
  simp [admittedOf]

theorem admittedOf_cons_false (i : String) (s : Nat) (L : List (String × Nat × Bool)) :
    admittedOf ((i, s, false) :: L) = admittedOf L := by
  simp [admittedOf]

theorem admittedOf_append (L1 L2 : List (String × Nat × Bool)) :
    admittedOf (L1 ++ L2) = admittedOf L1 ++ admittedOf L2 := by
  simp [admittedOf]

theorem timesOf_append_single (hist : List (String × Nat)) (i : String) (t : Nat)
    (id : String) :
    timesOf (hist ++ [(i, t)]) id =
      timesOf hist id ++ (if i = id then [t] else []) := by
  by_cases h : i = id <;> simp [timesOf, List.filter_append, h]

theorem runLog_cons (store : RateStore) (i : String) (s : Nat)
    (rest : List (String × Nat)) :
    runLog store ((i, s) :: rest) =
      (i, s, (checkRateLimit store i s).1) ::
        runLog (checkRateLimit store i s).2 rest := rfl

theorem runLog_times (calls : List (String × Nat)) :
    ∀ store : RateStore,
    (runLog store calls).map (fun e => e.2.1) = calls.map Prod.snd := by
  induction calls with
  | nil => intro store; rfl
  | cons c rest ih =>
    intro store
    rcases c with ⟨i, s⟩
    rw [runLog_cons]
    simp [ih]

theorem StoreHist_nil : StoreHist [] emptyStore := by
  intro id m _
  simp [emptyStore, timesOf]

theorem StoreHist_reject (hist : List (String × Nat)) (store : RateStore)
    (ip : String) (now : Nat) (hinv : StoreHist hist store)
    (h : (checkRateLimit store ip now).1 = false) :
    StoreHist hist (checkRateLimit store ip now).2 := by
  rw [checkRateLimit_reject_snd store ip now h]
  exact hinv

theorem StoreHist_admit (hist : List (String × Nat)) (store : RateStore)
    (ip : String) (now : Nat) (hinv : StoreHist hist store)
    (h : (checkRateLimit store ip now).1 = true) :
    StoreHist (hist ++ [(ip, now)]) (checkRateLimit store ip now).2 := by
  rw [checkRateLimit_admit_snd store ip now h]
  intro id m hm
  have hmnow : now ≤ m := hm (ip, now) (by simp)
  have hmh : ∀ p ∈ hist, p.2 ≤ m := fun p hp => hm p (by simp [hp])
  rw [timesOf_append_single]
  dsimp only
  by_cases hid : id = ip
  · subst hid
    rw [if_pos rfl, if_pos rfl]
    rw [List.filter_append, List.filter_append]
    have hff : (((store id).filter (fun t => now - t < RATE_LIMIT_WINDOW)).filter
        (fun t => m - t < RATE_LIMIT_WINDOW)) =
        (store id).filter (fun t => m - t < RATE_LIMIT_WINDOW) := by
      rw [List.filter_filter]
      apply List.filter_congr
      intro t _
      by_cases hmt : m - t < RATE_LIMIT_WINDOW
      · have hnt : now - t < RATE_LIMIT_WINDOW :=
          lt_of_le_of_lt (Nat.sub_le_sub_right hmnow t) hmt
        simp [hmt, hnt]
      · simp [hmt]
    rw [hff, hinv id m hmh]
  · rw [if_neg (fun he => hid he), if_neg (fun he => hid he.symm)]
    rw [List.append_nil]
    exact hinv id m hmh

theorem countP_winPred_eq (hist : List (String × Nat)) (id : String) (t : Nat)
    (hle : ∀ p ∈ hist, p.2 ≤ t) :
    hist.countP (winPred id t) =
      ((timesOf hist id).filter (fun x => t - x < RATE_LIMIT_WINDOW)).length := by
  induction hist with
  | nil => simp [timesOf]
  | cons p rest ih =>
    have hp : p.2 ≤ t := hle p (by simp)
    have hrest : ∀ q ∈ rest, q.2 ≤ t := fun q hq => hle q (by simp [hq])
    rw [List.countP_cons, ih hrest]
    by_cases hid : p.1 = id
    · by_cases hw : t - p.2 < RATE_LIMIT_WINDOW
      · simp [timesOf, winPred, List.filter_cons, hid, hw, hp]
      · simp [timesOf, winPred, List.filter_cons, hid, hw, hp]
    · simp [timesOf, winPred, List.filter_cons, hid]


/-- The grand induction over a run: at every position of the log, the
verdict matches the exact count of previously admitted requests for
that identity inside the trailing window of the call's instant. -/
theorem runLog_split (calls : List (String × Nat)) :
    ∀ (store : RateStore) (hist : List (String × Nat)),
    StoreHist hist store →
    ((hist ++ calls).map Prod.snd).Sorted (· ≤ ·) →
    ∀ L1 q u c L2, runLog store calls = L1 ++ (q, u, c) :: L2 →
      (c = true →
        (hist ++ admittedOf L1).countP (winPred q u) < MAX_REQUESTS_PER_WINDOW) ∧
      (c = false →
        MAX_REQUESTS_PER_WINDOW ≤ (hist ++ admittedOf L1).countP (winPred q u)) := by
  induction calls with
  | nil =>
    intro store hist _ _ L1 q u c L2 hsplit
    rw [show runLog store [] = [] from rfl] at hsplit
    rcases L1 with _ | ⟨e, L1'⟩ <;> simp_all
  | cons hd rest ih =>
    rcases hd with ⟨i, s⟩
    intro store hist hinv hsorted L1 q u c L2 hsplit
    have hhs : ∀ p ∈ hist, p.2 ≤ s := by
      intro p hp
      have hmem : p.2 ∈ hist.map Prod.snd := List.mem_map_of_mem _ hp
      have hs' : (hist.map Prod.snd ++ s :: rest.map Prod.snd).Pairwise (· ≤ ·) := by
        simpa [List.Sorted] using hsorted
      exact (List.pairwise_append.mp hs').2.2 _ hmem s (by simp)
    rw [runLog_cons] at hsplit
    rcases L1 with _ | ⟨e, L1'⟩
    · rw [List.nil_append] at hsplit
      injection hsplit with h1 h2
      injection h1 with hi h1'
      injection h1' with ht hb
      rw [← hi, ← ht, ← hb]
      have hcount : hist.countP (winPred i s) =
          ((store i).filter (fun x => s - x < RATE_LIMIT_WINDOW)).length := by
        rw [countP_winPred_eq hist i s hhs, hinv i s hhs]
      have hfst := checkRateLimit_fst store i s
      constructor
      · intro hc
        rw [hc] at hfst
        have hlen : ¬ MAX_REQUESTS_PER_WINDOW ≤
            ((store i).filter (fun x => s - x < RATE_LIMIT_WINDOW)).length := by
          simpa using hfst.symm
        simp only [admittedOf, List.filterMap_nil, List.append_nil, hcount]
        omega
      · intro hc
        rw [hc] at hfst
        have hlen : MAX_REQUESTS_PER_WINDOW ≤
            ((store i).filter (fun x => s - x < RATE_LIMIT_WINDOW)).length := by
          simpa using hfst.symm
        simp only [admittedOf, List.filterMap_nil, List.append_nil, hcount]
        omega
    · rw [List.cons_append] at hsplit
      injection hsplit with h1 h2
      subst h1
      rcases hck : (checkRateLimit store i s).1 with _ | _
      · have hinv' : StoreHist hist (checkRateLimit store i s).2 :=
          StoreHist_reject hist store i s hinv hck
        have hsorted' : ((hist ++ rest).map Prod.snd).Sorted (· ≤ ·) := by
          have hsub : List.Sublist (hist ++ rest) (hist ++ (i, s) :: rest) :=
            (List.sublist_cons_self (i, s) rest).append_left hist
          exact List.Pairwise.sublist (hsub.map Prod.snd) hsorted
        have hres := ih (checkRateLimit store i s).2 hist hinv' hsorted'
          L1' q u c L2 h2
        rw [admittedOf_cons_false]
        exact hres
      · have hinv' : StoreHist (hist ++ [(i, s)]) (checkRateLimit store i s).2 :=
          StoreHist_admit hist store i s hinv hck
        have hsorted' : (((hist ++ [(i, s)]) ++ rest).map Prod.snd).Sorted (· ≤ ·) := by
          simpa [List.append_assoc] using hsorted
        have hres := ih (checkRateLimit store i s).2 (hist ++ [(i, s)]) hinv' hsorted'
          L1' q u c L2 h2
        rw [admittedOf_cons_true]
        rw [(by simp : hist ++ (i, s) :: admittedOf L1' =
          (hist ++ [(i, s)]) ++ admittedOf L1')]
        exact hres

theorem mem_admittedOf_times (L : List (String × Nat × Bool)) (p : String × Nat)
    (hp : p ∈ admittedOf L) : p.2 ∈ L.map (fun e => e.2.1) := by
  rw [admittedOf, List.mem_filterMap] at hp
  obtain ⟨e, he, hfe⟩ := hp
  by_cases hb : e.2.2 = true
  · rw [if_pos hb] at hfe
    injection hfe with h
    rw [← h]
    exact List.mem_map_of_mem _ he
  · rw [if_neg hb] at hfe
    cases hfe

/-- If every admitted entry of a time-sorted log saw strictly fewer
than `MAX_REQUESTS_PER_WINDOW` previously admitted requests inside its
own trailing window, then no trailing window of any instant contains
more than `MAX_REQUESTS_PER_WINDOW` admitted requests. -/
theorem admitted_window_bound :
    ∀ log : List (String × Nat × Bool),
    (log.map (fun e => e.2.1)).Sorted (· ≤ ·) →
    (∀ L1 q u L2, log = L1 ++ (q, u, true) :: L2 →
      (admittedOf L1).countP (winPred q u) < MAX_REQUESTS_PER_WINDOW) →
    ∀ (ident : String) (T : Nat),
      (admittedOf log).countP (winPred ident T) ≤ MAX_REQUESTS_PER_WINDOW := by
  intro log
  induction log using List.reverseRecOn with
  | nil => intro _ _ ident T; simp [admittedOf]
  | append_singleton M e ih =>
    intro hsorted hsplit ident T
    rcases e with ⟨i, s, b⟩
    have hsorted' : (M.map (fun e => e.2.1)).Sorted (· ≤ ·) := by
      have hsub : List.Sublist M (M ++ [(i, s, b)]) :=
        List.sublist_append_left M [(i, s, b)]
      exact List.Pairwise.sublist (hsub.map (fun e => e.2.1)) hsorted
    have hsplit' : ∀ L1 q u L2, M = L1 ++ (q, u, true) :: L2 →
        (admittedOf L1).countP (winPred q u) < MAX_REQUESTS_PER_WINDOW := by
      intro L1 q u L2 hM
      exact hsplit L1 q u (L2 ++ [(i, s, b)]) (by rw [hM]; simp)
    have hMs : ∀ x ∈ M, x.2.1 ≤ s := by
      intro x hx
      have hx' : x.2.1 ∈ M.map (fun e => e.2.1) := List.mem_map_of_mem _ hx
      have hpw : (M.map (fun e => e.2.1) ++ [s]).Pairwise (· ≤ ·) := by
        simpa using hsorted
      exact (List.pairwise_append.mp hpw).2.2 _ hx' s (by simp)
    rw [admittedOf_append, List.countP_append]
    cases b
    · rw [show admittedOf [(i, s, false)] = [] from rfl]
      simp only [List.countP_nil, Nat.add_zero]
      exact ih hsorted' hsplit' ident T
    · rw [show admittedOf [(i, s, true)] = [(i, s)] from rfl]
      by_cases hw : winPred ident T (i, s) = true
      · obtain ⟨hq, hsT, hTW⟩ :
            i = ident ∧ s ≤ T ∧ T - s < RATE_LIMIT_WINDOW := by
          simpa [winPred] using hw
        have hcount1 : List.countP (winPred ident T) [(i, s)] = 1 := by
          simp [List.countP_cons, hw]
        have hmono : (admittedOf M).countP (winPred ident T) ≤
            (admittedOf M).countP (winPred i s) := by
          apply List.countP_mono_left
          intro p hp hpw
          obtain ⟨hp1, hp2, _⟩ :
              p.1 = ident ∧ p.2 ≤ T ∧ T - p.2 < RATE_LIMIT_WINDOW := by
            simpa [winPred] using hpw
          have hptimes : p.2 ∈ M.map (fun e => e.2.1) :=
            mem_admittedOf_times M p hp
          obtain ⟨x, hxM, hx2⟩ := List.mem_map.mp hptimes
          have hps : p.2 ≤ s := hx2 ▸ hMs x hxM
          have hsw : s - p.2 < RATE_LIMIT_WINDOW := by
            have h1 : s - p.2 ≤ T - p.2 := Nat.sub_le_sub_right hsT p.2
            have h2 : T - p.2 < RATE_LIMIT_WINDOW := by
              have := Nat.sub_le_sub_left hps T
              omega
            omega
          simp [winPred, hp1, hq, hps, hsw]
        have hfin : (admittedOf M).countP (winPred i s) <
            MAX_REQUESTS_PER_WINDOW := hsplit M i s [] (by simp)
        rw [hcount1]
        omega
      · have hcount0 : List.countP (winPred ident T) [(i, s)] = 0 := by
          simp only [List.countP_cons, List.countP_nil]
          rw [if_neg (by simpa using hw)]
        rw [hcount0]
        simp only [Nat.add_zero]
        exact ih hsorted' hsplit' ident T

/-- C1: `checkRateLimit` keeps exactly the stored entries inside the
60000 ms window of `now`, returns `false` exactly when the kept count
is at least 30 (mutating nothing in that case), and otherwise appends
`now` and stores the kept-plus-appended sequence back. Consequently,
over any run from the empty store with non-decreasing instants, the
number of admitted requests of an identity whose timestamps fall in
any trailing 60000 ms interval never exceeds 30, and a request is
rejected only when at least 30 admitted timestamps of that identity
lie within the window ending at its instant — the count is exact. -/
theorem checkRateLimit_sliding_window (calls : List (String × Nat))
    (hsorted : (calls.map Prod.snd).Sorted (· ≤ ·)) :
    (∀ (store : RateStore) (ip : String) (now : Nat),
      ((checkRateLimit store ip now).1 = false ↔
        MAX_REQUESTS_PER_WINDOW ≤
          ((store ip).filter (fun t => now - t < RATE_LIMIT_WINDOW)).length) ∧
      ((checkRateLimit store ip now).1 = true →
        (checkRateLimit store ip now).2 ip =
          ((store ip).filter (fun t => now - t < RATE_LIMIT_WINDOW)) ++ [now]) ∧
      ((checkRateLimit store ip now).1 = false →
        (checkRateLimit store ip now).2 = store)) ∧
    (∀ (ident : String) (T : Nat),
      (admittedOf (runLog emptyStore calls)).countP (winPred ident T) ≤
        MAX_REQUESTS_PER_WINDOW) ∧
    (∀ L1 q u L2, runLog emptyStore calls = L1 ++ (q, u, false) :: L2 →
      MAX_REQUESTS_PER_WINDOW ≤ (admittedOf L1).countP (winPred q u)) := by
  have hsorted0 : (([] ++ calls).map Prod.snd).Sorted (· ≤ ·) := by
    simpa using hsorted
  have hsplitRes := runLog_split calls emptyStore [] StoreHist_nil hsorted0
  refine ⟨?_, ?_, ?_⟩
  · intro store ip now
    refine ⟨?_, ?_, checkRateLimit_reject_snd store ip now⟩
    · rw [checkRateLimit_fst store ip now]
      simp
    · intro h
      rw [checkRateLimit_admit_snd store ip now h]
      dsimp only
      rw [if_pos rfl]
  · intro ident T
    apply admitted_window_bound (runLog emptyStore calls)
    · rw [runLog_times calls emptyStore]
      exact hsorted
    · intro L1 q u L2 hsp
      have hres := (hsplitRes L1 q u true L2 hsp).1 rfl
      simpa using hres
  · intro L1 q u L2 hsp
    have hres := (hsplitRes L1 q u false L2 hsp).2 rfl
    simpa using hres

theorem checkRateLimit_sliding_window_witness :
    (admittedOf (runLog emptyStore [("a", 0), ("a", 40000), ("b", 70000)])).countP
        (winPred "a" 70000) ≤ MAX_REQUESTS_PER_WINDOW :=
  (checkRateLimit_sliding_window [("a", 0), ("a", 40000), ("b", 70000)]
    (by decide)).2.1 "a" 70000
